import Mathlib

/-!
# A verification development for `FIDE_ratings.py`

This file gives a shallow embedding of the core pipeline of
`src/FIDE_ratings.py` — extraction of rating records from profile markup
(`get_fide_rating`), the cache (`cache_ratings` / `get_cached_ratings`),
the fetch-or-reuse decision of the route handler (`resolve`), and the
display sort (`rank`, line 141 of the source) — and proves or refutes the
specified properties of those operations.

Conventions of the embedding:
* Python strings are Lean `String`s; `str.strip()` / `str.split()` /
  `int(...)` are re-implemented below over `List Char` so that they are
  fully executable (`pyStrip`, `pyTokens`, `pythonInt`).
* BeautifulSoup access is abstracted into a `Markup` value recording
  exactly the pieces the program reads: the title node's text (if the
  node is found) and the list of rating-entry nodes (if the ratings
  container is found), each entry carrying its label span's text (if the
  span is found) and its own full text.
* A Python exception escaping a piece of code is an `Except.error ()`;
  the `try`/`except` of `get_fide_rating` catches every such error.
* Machine-level concerns (actual HTTP, the bytes of the cache file) are
  abstracted: a transport attempt is a `TransportOutcome`, and the cache
  file's content is a JSON value `JVal` (the `json` module's text layer
  is trusted to round-trip JSON values).
-/

namespace FIDE

/-! ## Python string primitives -/

/-- Whitespace characters recognised by Python's default `str.split()` and
`str.strip()` (ASCII subset; exotic Unicode whitespace is not modelled). -/
def pyIsSpace (c : Char) : Bool :=
  c = ' ' || c = '\t' || c = '\n' || c = '\r' || c = Char.ofNat 11 || c = Char.ofNat 12

/-- Python `str.strip()`: drop leading and trailing whitespace. -/
def pyStrip (s : String) : String :=
  ⟨((s.toList.dropWhile pyIsSpace).reverse.dropWhile pyIsSpace).reverse⟩

/-- Accumulator-based tokenizer: splits a character list on whitespace runs,
discarding empty pieces, like Python `str.split()` with no argument. -/
def tokensAux (acc : List Char) : List Char → List (List Char)
  | [] => if acc = [] then [] else [acc.reverse]
  | c :: cs =>
    if pyIsSpace c then
      if acc = [] then tokensAux [] cs else acc.reverse :: tokensAux [] cs
    else tokensAux (c :: acc) cs

/-- Python `s.split()` (no separator argument). -/
def pyTokens (s : String) : List String :=
  (tokensAux [] s.toList).map fun cs => ⟨cs⟩

/-- Python `s.strip().split()[-1]`, made partial: `none` models the
`IndexError` raised by `[-1]` on an empty token list. -/
def lastTok (s : String) : Option String :=
  (pyTokens s).getLast?

/-- Value of a list of ASCII digits read in base 10. -/
def decDigits (cs : List Char) : Nat :=
  cs.foldl (fun a c => a * 10 + (c.toNat - 48)) 0

/-- Validity of the digit part accepted by Python `int`: nonempty, starts
with a digit, and every `_` is surrounded by digits (single separators). -/
def validDigitsGo : List Char → Bool
  | [] => true
  | '_' :: [] => false
  | '_' :: d :: rest => d.isDigit && validDigitsGo rest
  | d :: rest => d.isDigit && validDigitsGo rest

/-- See `validDigitsGo`: the whole digit run, which must start with a digit. -/
def validDigits : List Char → Bool
  | [] => false
  | c :: rest => c.isDigit && validDigitsGo rest

/-- Parse a digit run (with optional `_` separators) to a `Nat`. -/
def parseNatDigits (cs : List Char) : Option Nat :=
  if validDigits cs then some (decDigits (cs.filter fun c => c ≠ '_')) else none

/-- Python `int(s)` on a string: optional surrounding whitespace, optional
sign, ASCII digits with single underscore separators. `none` models the
`ValueError` raised on any other input. (Non-ASCII digit alphabets are not
modelled.) -/
def pythonInt (s : String) : Option Int :=
  match (pyStrip s).toList with
  | '+' :: rest => (parseNatDigits rest).map Int.ofNat
  | '-' :: rest => (parseNatDigits rest).map fun n => -(Int.ofNat n)
  | cs => (parseNatDigits cs).map Int.ofNat

/-! ## Data model -/

/-- A rating field of a record: the Python code stores either an `int`
(a successfully parsed non-negative rating) or the string `"Unrated"`. -/
inductive Rating where
  | num (n : Int)
  | unrated
deriving DecidableEq, Repr

/-- The five-field player record built by `get_fide_rating`
(the Python dict `{"name": ..., "fide_id": ..., "standard": ...,
"rapid": ..., "blitz": ...}`). -/
structure Record where
  name : String
  fide_id : String
  standard : Rating
  rapid : Rating
  blitz : Rating
deriving DecidableEq, Repr

/-- The fully degraded sentinel record returned on the player-not-found
path (line 58) and on any caught exception (line 98). -/
def mkNotFound (fide_id : String) : Record :=
  { name := "Player ID " ++ fide_id
    fide_id := fide_id
    standard := Rating.unrated
    rapid := Rating.unrated
    blitz := Rating.unrated }

/-! ## Extraction (`get_fide_rating`, lines 53–89) -/

/-- One `div.profile-top-rating-data` node: `desc` is the text of its
`span.profile-top-rating-dataDesc` (`none` when the span is missing, in
which case Python raises `AttributeError` on `.text`), and `text` is the
node's own full text. -/
structure RatingEntry where
  desc : Option String
  text : String
deriving DecidableEq, Repr

/-- The pieces of the parsed profile page that the program reads:
the title node's text if `soup.find('div', class_='profile-top-title')`
succeeds, and the rating-entry nodes if the ratings container is found. -/
structure Markup where
  titleText : Option String
  ratingsSection : Option (List RatingEntry)
deriving DecidableEq, Repr

/-- Lines 74–79: parse one rating token; non-numeric or negative tokens
become `Unrated`. -/
def parseRating (tok : String) : Rating :=
  match pythonInt tok with
  | some n => if n < 0 then Rating.unrated else Rating.num n
  | none => Rating.unrated

/-- The body of the `for entry in rating_entries` loop (lines 70–86), acting
on the accumulator `(standard_rating, rapid_rating, blitz_rating)`.
`Except.error ()` models an exception escaping the loop body (missing label
span, or `[-1]` on an empty token list). -/
def stepEntry (acc : Rating × Rating × Rating) (e : RatingEntry) :
    Except Unit (Rating × Rating × Rating) :=
  match e.desc with
  | none => Except.error ()
  | some d =>
    match lastTok e.text with
    | none => Except.error ()
    | some tok =>
      let v : Rating := parseRating tok
      let t := pyStrip d
      if t = "std" then Except.ok (v, acc.2.1, acc.2.2)
      else if t = "rapid" then Except.ok (acc.1, v, acc.2.2)
      else if t = "blitz" then Except.ok (acc.1, acc.2.1, v)
      else Except.ok acc

/-- The parsing part of `get_fide_rating` (lines 56–89): from parsed markup
to a record. `Except.error ()` is an exception escaping this region (it will
be caught by the enclosing `try`). -/
def extract (m : Markup) (fide_id : String) : Except Unit Record :=
  match m.titleText with
  | none => Except.ok (mkNotFound fide_id)
  | some t =>
    match m.ratingsSection with
    | none =>
      Except.ok { name := pyStrip t, fide_id := fide_id,
                  standard := Rating.unrated, rapid := Rating.unrated,
                  blitz := Rating.unrated }
    | some entries =>
      match entries.foldlM stepEntry (Rating.unrated, Rating.unrated, Rating.unrated) with
      | Except.error e => Except.error e
      | Except.ok (s, r, b) =>
        Except.ok { name := pyStrip t, fide_id := fide_id,
                    standard := s, rapid := r, blitz := b }

/-- Outcome of the transport attempt `requests.get` + `raise_for_status`
for one identifier. -/
inductive TransportOutcome where
  | requestError
  | httpError
  | success (markup : Markup)

/-- `get_fide_rating(fide_id)` (lines 43–98): on transport success the
markup is parsed by `extract`; every exception — transport-level or raised
during parsing — is caught and mapped to the sentinel record (line 98). -/
def get_fide_rating (fide_id : String) (t : TransportOutcome) : Record :=
  match t with
  | TransportOutcome.requestError => mkNotFound fide_id
  | TransportOutcome.httpError => mkNotFound fide_id
  | TransportOutcome.success m =>
    match extract m fide_id with
    | Except.ok r => r
    | Except.error _ => mkNotFound fide_id

/-! ## Cache (`cache_ratings` lines 34–40, `get_cached_ratings` lines 20–31) -/

/-- JSON values, the codomain of `json.dump` / domain of `json.load` as the
program uses them (numbers in the program's data are always integers). -/
inductive JVal where
  | jnum (n : Int)
  | jstr (s : String)
  | jarr (xs : List JVal)
  | jobj (fields : List (String × JVal))

/-- JSON form of one rating field: an `int` or the string `"Unrated"`. -/
def encodeRating : Rating → JVal
  | Rating.num n => JVal.jnum n
  | Rating.unrated => JVal.jstr "Unrated"

/-- Inverse of `encodeRating`; `none` on any other JSON value. -/
def decodeRating : JVal → Option Rating
  | JVal.jnum n => some (Rating.num n)
  | JVal.jstr s => if s = "Unrated" then some Rating.unrated else none
  | _ => none

/-- JSON form of one record: the dict written at lines 58/89/98. -/
def encodeRecord (r : Record) : JVal :=
  JVal.jobj [("name", JVal.jstr r.name), ("fide_id", JVal.jstr r.fide_id),
             ("standard", encodeRating r.standard), ("rapid", encodeRating r.rapid),
             ("blitz", encodeRating r.blitz)]

/-- Inverse of `encodeRecord`; `none` on any JSON value of another shape. -/
def decodeRecord : JVal → Option Record
  | JVal.jobj [("name", JVal.jstr n), ("fide_id", JVal.jstr i),
               ("standard", s), ("rapid", r), ("blitz", b)] =>
    match decodeRating s, decodeRating r, decodeRating b with
    | some s1, some r1, some b1 =>
      some { name := n, fide_id := i, standard := s1, rapid := r1, blitz := b1 }
    | _, _, _ => none
  | _ => none

/-- JSON form of a whole snapshot (the list `json.dump`ed at line 37). -/
def encodeSnapshot (s : List Record) : JVal :=
  JVal.jarr (s.map encodeRecord)

/-- Decode a list of JSON values to records; `none` as soon as one
element fails. -/
def decodeRecordList : List JVal → Option (List Record)
  | [] => some []
  | j :: js =>
    match decodeRecord j, decodeRecordList js with
    | some r, some rs => some (r :: rs)
    | _, _ => none

/-- Inverse of `encodeSnapshot`. -/
def decodeSnapshot : JVal → Option (List Record)
  | JVal.jarr xs => decodeRecordList xs
  | _ => none

/-- `cache_ratings(ratings)` (lines 34–40): overwrite the cache file
wholesale with the serialized snapshot. The result is the new file state
(`Option JVal`: `some` = a file holding that JSON value). -/
def cache_ratings (ratings : List Record) : Option JVal :=
  some (encodeSnapshot ratings)

/-- `get_cached_ratings()` (lines 20–31): `none` when the file is absent or
its content does not decode to a snapshot (corruption is treated as
absence); otherwise the decoded snapshot. -/
def get_cached_ratings (file : Option JVal) : Option (List Record) :=
  match file with
  | none => none
  | some j => decodeSnapshot j

/-! ## Fetch-or-reuse decision (`show_ratings`, lines 127–130) -/

/-- What one `resolve` pass produces: the snapshot handed on to ranking,
the number of full fetch cycles performed (calls of `fetch_fide_ratings`),
and the cache state afterwards. -/
structure ResolveOut where
  snapshot : List Record
  fetchCycles : Nat
  cached : Option (List Record)
deriving Repr

/-- Lines 127–130: `players = get_cached_ratings(); if players is None:
players = fetch_fide_ratings(fide_ids)`. The cache is abstracted to the
result of `load` (`Option (List Record)`); a miss triggers exactly one
fetch cycle, whose result is stored (line 103). -/
def resolve (cached0 : Option (List Record)) (ids : List String)
    (fetchAll : List String → List Record) : ResolveOut :=
  match cached0 with
  | some players => { snapshot := players, fetchCycles := 0, cached := some players }
  | none =>
    { snapshot := fetchAll ids, fetchCycles := 1, cached := some (fetchAll ids) }

/-! ## Python runtime values and comparison (for the sort key of line 141) -/

/-- The Python values that can sit in a record's `standard` field: an `int`
or a `str`. -/
inductive PyVal where
  | pyint (n : Int)
  | pystr (s : String)
deriving DecidableEq, Repr

/-- The Python value actually stored in a rating field. -/
def pyOfRating : Rating → PyVal
  | Rating.num n => PyVal.pyint n
  | Rating.unrated => PyVal.pystr "Unrated"

/-- Python `==` on these values: cross-type comparison is `False`,
never an error. -/
def pyEq : PyVal → PyVal → Bool
  | PyVal.pyint a, PyVal.pyint b => a == b
  | PyVal.pystr a, PyVal.pystr b => a == b
  | _, _ => false

/-- Lexicographic strict comparison of character lists by code point:
Python `str < str`. -/
def strLtb : List Char → List Char → Bool
  | [], [] => false
  | [], _ :: _ => true
  | _ :: _, [] => false
  | a :: as, b :: bs =>
    if a.toNat < b.toNat then true
    else if a.toNat = b.toNat then strLtb as bs
    else false

/-- Python `<` on these values: defined within one type, a `TypeError`
(`Except.error ()`) across types. -/
def pyLt : PyVal → PyVal → Except Unit Bool
  | PyVal.pyint a, PyVal.pyint b => Except.ok (decide (a < b))
  | PyVal.pystr a, PyVal.pystr b => Except.ok (strLtb a.toList b.toList)
  | _, _ => Except.error ()

/-- The sort key of line 141 for a standard-field value `v`:
`(v == "Unrated", v)`. -/
def pyKeyOf (v : PyVal) : Bool × PyVal :=
  (pyEq v (PyVal.pystr "Unrated"), v)

/-- Python `<` on two such key tuples: the booleans are compared first
(with `==`, then `False < True`); only on a tie are the second components
compared, where a `TypeError` can occur. -/
def pyKeyLt (k1 k2 : Bool × PyVal) : Except Unit Bool :=
  if k1.1 = k2.1 then
    if pyEq k1.2 k2.2 then Except.ok false else pyLt k1.2 k2.2
  else Except.ok (!k1.1 && k2.1)

/-- Total version of Python `<=` on these values, used to run the sort
inside Lean. On same-type pairs it is exactly Python's comparison; the
cross-type clauses are arbitrary (Python raises there) and are never
exercised on valid keys — see the safety theorem for line 141 below. -/
def pyValLe : PyVal → PyVal → Bool
  | PyVal.pyint a, PyVal.pyint b => decide (a ≤ b)
  | PyVal.pystr a, PyVal.pystr b => !(strLtb b.toList a.toList)
  | PyVal.pyint _, PyVal.pystr _ => true
  | PyVal.pystr _, PyVal.pyint _ => false

/-- Total `<=` on key tuples (lexicographic; `False < True` on booleans). -/
def keyLe (k1 k2 : Bool × PyVal) : Bool :=
  if k1.1 = k2.1 then pyValLe k1.2 k2.2 else (!k1.1 && k2.1)

/-- The key of line 141 for a whole record. -/
def sortKey (r : Record) : Bool × PyVal :=
  pyKeyOf (pyOfRating r.standard)

/-! ## The display sort (`show_ratings`, line 141)

`sorted(..., key=..., reverse=True)` is a stable sort into non-ascending
key order: `x` precedes `y` in the output iff `key x > key y`, or the keys
are tied and `x` preceded `y` in the input. `rank` below implements that
order as a stable insertion sort, which is executable in the kernel. -/

/-- Insert `x` into a list sorted non-ascending by `sortKey`, after every
element with a strictly greater key and before every element with a key
`≤ sortKey x` — so before earlier elements with a tied key never, and
after later ones never, matching the stability of Python's sort. -/
def insertDesc (x : Record) : List Record → List Record
  | [] => [x]
  | y :: ys =>
    if keyLe (sortKey y) (sortKey x) then x :: y :: ys
    else y :: insertDesc x ys

/-- Stable non-ascending insertion sort by `sortKey`. -/
def isort : List Record → List Record
  | [] => []
  | x :: xs => insertDesc x (isort xs)

/-- Line 141: `sorted(players, key=lambda x: (x['standard'] == "Unrated",
x['standard']), reverse=True)`. -/
def rank (players : List Record) : List Record :=
  isort players

/-! ## Spec-side descriptions, for comparison with the code

The following definitions restate pieces of the specified behaviour
independently of the loop structure of the code; the theorems below relate
them to the definitions above. -/

/-- An entry the loop body survives: its label span exists and its text has
at least one whitespace-delimited token. -/
def entryOk (e : RatingEntry) : Bool :=
  e.desc.isSome && (lastTok e.text).isSome

/-- The stripped label of an entry, when its label span exists. -/
def entryLabel (e : RatingEntry) : Option String :=
  e.desc.map pyStrip

/-- The rating value an entry denotes: the parse of the last
whitespace-delimited token of its text. -/
def entryValue (e : RatingEntry) : Rating :=
  parseRating ((lastTok e.text).getD "")

/-- Spec-side description of one output field: the value of the last entry
whose label equals `lbl` exactly, or the default when no entry matches. -/
def specField (lbl : String) (dflt : Rating) (es : List RatingEntry) : Rating :=
  match (es.filter fun e => entryLabel e == some lbl).getLast? with
  | some e => entryValue e
  | none => dflt

/-- A `standard`-field value of the shape the spec allows a record to
carry: a Python `int`, or the Python string `"Unrated"`. -/
def validStd (v : PyVal) : Prop :=
  (∃ n, v = PyVal.pyint n) ∨ v = PyVal.pystr "Unrated"

/-! ## Order lemmas for the sort key of line 141 -/

theorem sortKey_num (r : Record) (n : Int) (h : r.standard = Rating.num n) :
    sortKey r = (false, PyVal.pyint n) := by
  simp [sortKey, pyKeyOf, pyOfRating, pyEq, h]

theorem sortKey_unrated (r : Record) (h : r.standard = Rating.unrated) :
    sortKey r = (true, PyVal.pystr "Unrated") := by
  simp [sortKey, pyKeyOf, pyOfRating, pyEq, h]

theorem keyLe_num_num (a b : Int) :
    keyLe (false, PyVal.pyint a) (false, PyVal.pyint b) = decide (a ≤ b) := by
  simp [keyLe, pyValLe]

theorem keyLe_false_true (v w : PyVal) :
    keyLe (false, v) (true, w) = true := by
  simp [keyLe]

theorem keyLe_true_false (v w : PyVal) :
    keyLe (true, v) (false, w) = false := by
  simp [keyLe]

theorem keyLe_unrated_unrated :
    keyLe (true, PyVal.pystr "Unrated") (true, PyVal.pystr "Unrated") = true := by
  decide

theorem keyLe_sortKey_total (x y : Record) :
    keyLe (sortKey x) (sortKey y) = true ∨ keyLe (sortKey y) (sortKey x) = true := by
  rcases hx : x.standard with n | _ <;> rcases hy : y.standard with m | _
  · rw [sortKey_num x n hx, sortKey_num y m hy, keyLe_num_num, keyLe_num_num]
    rcases Int.le_total n m with h | h
    · exact Or.inl (by simpa using h)
    · exact Or.inr (by simpa using h)
  · rw [sortKey_num x n hx, sortKey_unrated y hy]
    exact Or.inl (keyLe_false_true _ _)
  · rw [sortKey_unrated x hx, sortKey_num y m hy]
    exact Or.inr (keyLe_false_true _ _)
  · rw [sortKey_unrated x hx, sortKey_unrated y hy]
    exact Or.inl keyLe_unrated_unrated

theorem keyLe_sortKey_trans {x y z : Record}
    (h1 : keyLe (sortKey x) (sortKey y) = true)
    (h2 : keyLe (sortKey y) (sortKey z) = true) :
    keyLe (sortKey x) (sortKey z) = true := by
  rcases hx : x.standard with n | _ <;> rcases hy : y.standard with m | _ <;>
    rcases hz : z.standard with k | _
  · rw [sortKey_num x n hx, sortKey_num y m hy, keyLe_num_num] at h1
    rw [sortKey_num y m hy, sortKey_num z k hz, keyLe_num_num] at h2
    rw [sortKey_num x n hx, sortKey_num z k hz, keyLe_num_num]
    simp only [decide_eq_true_eq] at h1 h2 ⊢
    omega
  · rw [sortKey_num x n hx, sortKey_unrated z hz]
    exact keyLe_false_true _ _
  · rw [sortKey_unrated y hy, sortKey_num z k hz, keyLe_true_false] at h2
    exact absurd h2 (by simp)
  · rw [sortKey_num x n hx, sortKey_unrated z hz]
    exact keyLe_false_true _ _
  · rw [sortKey_unrated x hx, sortKey_num y m hy, keyLe_true_false] at h1
    exact absurd h1 (by simp)
  · rw [sortKey_unrated x hx, sortKey_num y m hy, keyLe_true_false] at h1
    exact absurd h1 (by simp)
  · rw [sortKey_unrated y hy, sortKey_num z k hz, keyLe_true_false] at h2
    exact absurd h2 (by simp)
  · rw [sortKey_unrated x hx, sortKey_unrated z hz]
    exact keyLe_unrated_unrated

/-! ## The insertion sort is a stable sort: ordering lemmas -/

/-- Membership in an insertion. -/
theorem mem_insertDesc {z x : Record} :
    ∀ {l : List Record}, z ∈ insertDesc x l → z = x ∨ z ∈ l := by
  intro l
  induction l with
  | nil =>
    intro h
    simp only [insertDesc, List.mem_singleton] at h
    exact Or.inl h
  | cons y ys ih =>
    intro h
    simp only [insertDesc] at h
    split at h
    · rcases List.mem_cons.mp h with h | h
      · exact Or.inl h
      · exact Or.inr h
    · rcases List.mem_cons.mp h with h | h
      · exact Or.inr (by simp [h])
      · rcases ih h with h | h
        · exact Or.inl h
        · exact Or.inr (List.mem_cons_of_mem _ h)

/-- The non-ascending-key relation the output of `rank` is ordered by. -/
def keyGe (x y : Record) : Prop :=
  keyLe (sortKey y) (sortKey x) = true

theorem pairwise_insertDesc {x : Record} :
    ∀ {l : List Record}, l.Pairwise keyGe → (insertDesc x l).Pairwise keyGe := by
  intro l
  induction l with
  | nil =>
    intro _
    simp [insertDesc]
  | cons y ys ih =>
    intro hl
    rcases List.pairwise_cons.mp hl with ⟨hy, hys⟩
    by_cases hc : keyLe (sortKey y) (sortKey x) = true
    · simp only [insertDesc, hc, if_true]
      refine List.pairwise_cons.mpr ⟨?_, hl⟩
      intro z hz
      rcases List.mem_cons.mp hz with h | h
      · rw [h]; exact hc
      · exact keyLe_sortKey_trans (hy z h) hc
    · simp only [insertDesc, hc, if_false]
      refine List.pairwise_cons.mpr ⟨?_, ih hys⟩
      intro z hz
      rcases mem_insertDesc hz with h | h
      · rw [h]
        rcases keyLe_sortKey_total x y with ht | ht
        · exact ht
        · exact absurd ht hc
      · exact hy z h

theorem pairwise_isort (l : List Record) : (isort l).Pairwise keyGe := by
  induction l with
  | nil => simp [isort]
  | cons x xs ih => exact pairwise_insertDesc ih

theorem isort_of_pairwise : ∀ {l : List Record}, l.Pairwise keyGe → isort l = l := by
  intro l
  induction l with
  | nil => intro _; rfl
  | cons x xs ih =>
    intro hl
    rcases List.pairwise_cons.mp hl with ⟨hx, hxs⟩
    rw [isort, ih hxs]
    cases xs with
    | nil => rfl
    | cons y ys =>
      have : keyLe (sortKey y) (sortKey x) = true := hx y (List.mem_cons_self _ _)
      simp [insertDesc, this]

/-! ## Extraction lemmas -/

/-- Explicit form of one loop iteration when no exception occurs: each of
the three fields is overwritten exactly when the stripped label equals its
name. -/
theorem stepEntry_ok (e : RatingEntry) (d tok : String)
    (acc : Rating × Rating × Rating)
    (hd : e.desc = some d) (ht : lastTok e.text = some tok) :
    stepEntry acc e = Except.ok
      ((if pyStrip d = "std" then parseRating tok else acc.1),
       (if pyStrip d = "rapid" then parseRating tok else acc.2.1),
       (if pyStrip d = "blitz" then parseRating tok else acc.2.2)) := by
  have h1 : ("std" : String) ≠ "rapid" := by decide
  have h2 : ("std" : String) ≠ "blitz" := by decide
  have h3 : ("rapid" : String) ≠ "blitz" := by decide
  simp only [stepEntry, hd, ht]
  by_cases e1 : pyStrip d = "std"
  · simp [e1, h1, h2]
  · by_cases e2 : pyStrip d = "rapid"
    · simp [e1, e2, h3]
    · by_cases e3 : pyStrip d = "blitz"
      · simp [e1, e2, e3]
      · simp [e1, e2, e3]

/-- Peeling one entry off the spec-side field description. -/
theorem specField_cons (lbl : String) (dflt : Rating) (e : RatingEntry)
    (rest : List RatingEntry) :
    specField lbl dflt (e :: rest) =
      specField lbl (if entryLabel e == some lbl then entryValue e else dflt) rest := by
  by_cases h : (entryLabel e == some lbl) = true
  · simp only [specField, List.filter_cons, h, if_true]
    cases hl : (rest.filter fun e2 => entryLabel e2 == some lbl) with
    | nil => simp
    | cons a l =>
      simp only [List.getLast?_cons_cons]
      cases hg : (a :: l).getLast? with
      | none => exact absurd (List.getLast?_eq_none_iff.mp hg) (by simp)
      | some b => simp
  · simp only [specField, List.filter_cons, h, if_false]
    simp [Bool.not_eq_true] at h
    simp [h]

/-- The whole loop, when every entry is survivable, computes exactly the
three spec-side fields. -/
theorem foldlM_stepEntry :
    ∀ (es : List RatingEntry) (acc : Rating × Rating × Rating),
      (∀ e ∈ es, entryOk e = true) →
      es.foldlM stepEntry acc =
        Except.ok (specField "std" acc.1 es, specField "rapid" acc.2.1 es,
                   specField "blitz" acc.2.2 es) := by
  intro es
  induction es with
  | nil =>
    intro acc _
    rfl
  | cons e rest ih =>
    intro acc h
    have he : entryOk e = true := h e (List.mem_cons_self _ _)
    have hrest : ∀ e2 ∈ rest, entryOk e2 = true := fun e2 h2 => h e2 (List.mem_cons_of_mem _ h2)
    rcases Option.isSome_iff_exists.mp (Bool.and_elim_left he) with ⟨d, hd⟩
    rcases Option.isSome_iff_exists.mp (Bool.and_elim_right he) with ⟨tok, htok⟩
    have hlabel : entryLabel e = some (pyStrip d) := by simp [entryLabel, hd]
    have hvalue : entryValue e = parseRating tok := by simp [entryValue, htok]
    rw [List.foldlM_cons, stepEntry_ok e d tok acc hd htok]
    show Except.bind _ _ = _
    rw [Except.bind, ih _ hrest]
    rw [specField_cons, specField_cons, specField_cons]
    rw [hlabel, hvalue]
    simp only [Option.some.injEq, beq_iff_eq]
  /- the three defaults now agree field by field -/

/-- Every successfully extracted record carries the requested identifier. -/
theorem extract_fide_id (m : Markup) (i : String) (r : Record)
    (h : extract m i = Except.ok r) : r.fide_id = i := by
  rcases m with ⟨tt, rs⟩
  cases tt with
  | none =>
    simp only [extract, Except.ok.injEq] at h
    rw [← h]
    rfl
  | some t =>
    cases rs with
    | none =>
      simp only [extract, Except.ok.injEq] at h
      rw [← h]
    | some entries =>
      simp only [extract] at h
      cases hf : entries.foldlM stepEntry (Rating.unrated, Rating.unrated, Rating.unrated) with
      | error e => rw [hf] at h; exact absurd h (by simp)
      | ok v =>
        rw [hf] at h
        rcases v with ⟨s, rp, b⟩
        simp only [Except.ok.injEq] at h
        rw [← h]

/-! ## Cache round-trip lemmas -/

theorem decodeRating_encodeRating (x : Rating) :
    decodeRating (encodeRating x) = some x := by
  cases x <;> rfl

theorem decodeRecord_encodeRecord (r : Record) :
    decodeRecord (encodeRecord r) = some r := by
  rcases r with ⟨n, i, s, rp, b⟩
  cases s <;> cases rp <;> cases b <;> rfl

theorem decodeSnapshot_encodeSnapshot (s : List Record) :
    decodeSnapshot (encodeSnapshot s) = some s := by
  induction s with
  | nil => rfl
  | cons r rest ih =>
    simp only [encodeSnapshot, decodeSnapshot] at ih ⊢
    simp [decodeRecordList, decodeRecord_encodeRecord, ih]

/-! ## The claims -/

/-- Claim C1 (evaluation at the failing input). The claim — and the code's
own comment on line 140 — say that a record with `standard = Unrated` is
placed after a numeric-standard record, in particular that a 2500 record
comes before an Unrated record. The code does the opposite: `reverse=True`
on line 141 also inverts the primary `is-unrated` boolean key, so `rank`
of a `[2500, Unrated]` batch returns the Unrated record first. -/
theorem rank_places_unrated_first_c1 :
    rank [{ name := "A", fide_id := "1", standard := Rating.num 2500,
            rapid := Rating.unrated, blitz := Rating.unrated },
          { name := "B", fide_id := "2", standard := Rating.unrated,
            rapid := Rating.unrated, blitz := Rating.unrated }] =
      [{ name := "B", fide_id := "2", standard := Rating.unrated,
         rapid := Rating.unrated, blitz := Rating.unrated },
       { name := "A", fide_id := "1", standard := Rating.num 2500,
         rapid := Rating.unrated, blitz := Rating.unrated }] := by
  decide

/-- Claim C2: when `load` yields a snapshot, `resolve` returns it verbatim
with zero fetch cycles, for every identifiers list (the snapshot is not
revalidated against it); and starting from an empty cache, two successive
`resolve` calls perform exactly one fetch cycle in total (the second is
served from the cache the first call stored). -/
theorem resolve_cache_hit_c2 (s : List Record) (ids ids2 : List String)
    (f : List String → List Record) :
    resolve (some s) ids f = { snapshot := s, fetchCycles := 0, cached := some s } ∧
    (resolve none ids f).fetchCycles
      + (resolve (resolve none ids f).cached ids2 f).fetchCycles = 1 :=
  ⟨rfl, rfl⟩

/-- Claim C3 (counterexample). The label `"stdX"` contains `"std"` as a
substring and its entry's last token parses to `2000`, so by the claim the
entry would be assigned to the `standard` field; but the code matches
labels by exact equality (lines 81–86), so the entry is ignored and the
field stays `Unrated`. -/
theorem substring_label_cex_c3 :
    (∃ pre post, pre ++ "std".toList ++ post = "stdX".toList) ∧
    parseRating "2000" = Rating.num 2000 ∧
    extract { titleText := some "Test Player",
              ratingsSection := some [{ desc := some "stdX", text := "stdX 2000" }] }
        "42"
      = Except.ok { name := "Test Player", fide_id := "42",
                    standard := Rating.unrated, rapid := Rating.unrated,
                    blitz := Rating.unrated } :=
  ⟨⟨[], ['X'], by decide⟩, by decide, rfl⟩

/-- Claim C3 (amended): each rating entry's stripped type label is matched
against `std`, `rapid` and `blitz` by exact, case-sensitive string
equality; each output field is the parsed last whitespace-delimited token
of the last entry whose label equals that field's name (default
`Unrated`), provided every entry has a label span and a nonempty token
list. -/
theorem label_equality_extraction_c3 (fide_id t : String) (es : List RatingEntry)
    (h : ∀ e ∈ es, entryOk e = true) :
    extract { titleText := some t, ratingsSection := some es } fide_id =
      Except.ok { name := pyStrip t, fide_id := fide_id,
                  standard := specField "std" Rating.unrated es,
                  rapid := specField "rapid" Rating.unrated es,
                  blitz := specField "blitz" Rating.unrated es } := by
  simp only [extract]
  rw [foldlM_stepEntry es (Rating.unrated, Rating.unrated, Rating.unrated) h]

/-- Witness for the amended C3: `"stdX"` is not assigned (no exact match),
the second `std` entry wins (last-write-wins), and a padded label
`" rapid "` strips to an exact match. -/
theorem label_equality_extraction_c3_witness :
    extract { titleText := some "N", ratingsSection := some (
        [{ desc := some "std", text := "std 2830" },
         { desc := some "stdX", text := "stdX 2000" },
         { desc := some " rapid ", text := "rapid 2900" },
         { desc := some "std", text := "std 2799" }]) } "9" =
      Except.ok { name := "N", fide_id := "9",
                  standard := Rating.num 2799, rapid := Rating.num 2900,
                  blitz := Rating.unrated } :=
  label_equality_extraction_c3 "9" "N"
    [{ desc := some "std", text := "std 2830" },
     { desc := some "stdX", text := "stdX 2000" },
     { desc := some " rapid ", text := "rapid 2900" },
     { desc := some "std", text := "std 2799" }]
    (by decide)

/-- Claim C4 (counterexample): for the empty-string identifier, the record
produced on total fetch failure has an empty `fide_id` field — the claim's
"identifier is non-empty, including for the empty identifier" is false. -/
theorem empty_identifier_cex_c4 :
    (get_fide_rating "" TransportOutcome.requestError).fide_id = "" :=
  rfl

/-- Claim C4 (amended): for every identifier and transport outcome the
record's identifier field equals the supplied identifier (so it is
non-empty exactly when the identifier is), and on total fetch failure the
record is still fully constructed: the sentinel with all five fields
populated. -/
theorem record_identifier_and_shape_c4 (fide_id : String) (t : TransportOutcome) :
    (get_fide_rating fide_id t).fide_id = fide_id ∧
    get_fide_rating fide_id TransportOutcome.requestError = mkNotFound fide_id ∧
    get_fide_rating fide_id TransportOutcome.httpError = mkNotFound fide_id := by
  refine ⟨?_, rfl, rfl⟩
  cases t with
  | requestError => rfl
  | httpError => rfl
  | success m =>
    show (match extract m fide_id with
          | Except.ok r => r
          | Except.error _ => mkNotFound fide_id).fide_id = fide_id
    cases hx : extract m fide_id with
    | ok r => exact extract_fide_id m fide_id r hx
    | error e => rfl

/-- Claim C5: for every identifier whose markup has no profile title node,
`extract` returns a record with name `"Player ID {identifier}"` and all
three rating fields `Unrated`, whatever the ratings container holds. -/
theorem no_title_sentinel_c5 (fide_id : String) (rs : Option (List RatingEntry)) :
    extract { titleText := none, ratingsSection := rs } fide_id
        = Except.ok (mkNotFound fide_id) ∧
    (mkNotFound fide_id).name = "Player ID " ++ fide_id ∧
    (mkNotFound fide_id).standard = Rating.unrated ∧
    (mkNotFound fide_id).rapid = Rating.unrated ∧
    (mkNotFound fide_id).blitz = Rating.unrated :=
  ⟨rfl, rfl, rfl, rfl, rfl⟩

/-- Claim C6: a rating entry whose value token is non-numeric or parses to
a negative integer resolves to `Unrated` (never the negative number), and
the loop iteration leaves every field other than the one matching the
entry's label exactly as it was — the record is not degraded. -/
theorem bad_token_single_field_c6 (e : RatingEntry) (d tok : String)
    (acc : Rating × Rating × Rating)
    (hd : e.desc = some d) (ht : lastTok e.text = some tok)
    (hbad : pythonInt tok = none ∨ ∃ n, pythonInt tok = some n ∧ n < 0) :
    parseRating tok = Rating.unrated ∧
    stepEntry acc e = Except.ok
      ((if pyStrip d = "std" then Rating.unrated else acc.1),
       (if pyStrip d = "rapid" then Rating.unrated else acc.2.1),
       (if pyStrip d = "blitz" then Rating.unrated else acc.2.2)) := by
  have hpr : parseRating tok = Rating.unrated := by
    rcases hbad with hb | ⟨n, hn, hneg⟩
    · simp [parseRating, hb]
    · simp [parseRating, hn, hneg]
  refine ⟨hpr, ?_⟩
  rw [stepEntry_ok e d tok acc hd ht, hpr]

/-- Witness for C6: a `rapid` entry whose token is `-5` turns only the
rapid field to `Unrated`; the standard and blitz accumulators survive. -/
theorem bad_token_single_field_c6_witness :
    parseRating "-5" = Rating.unrated ∧
    stepEntry (Rating.num 1, Rating.num 2, Rating.num 3)
        { desc := some "rapid", text := "rtg -5" } =
      Except.ok (Rating.num 1, Rating.unrated, Rating.num 3) :=
  bad_token_single_field_c6 { desc := some "rapid", text := "rtg -5" }
    "rapid" "-5" (Rating.num 1, Rating.num 2, Rating.num 3) rfl rfl
    (Or.inr ⟨-5, by decide, by decide⟩)

/-- Claim C7: on any transport failure — unreachable host, non-success
HTTP status — and likewise when parsing the response raises, the caught
exception is mapped to the fully-degraded sentinel record; `get_fide_rating`
is a total function and never propagates an exception to its caller. -/
theorem transport_failure_sentinel_c7 (fide_id : String) :
    get_fide_rating fide_id TransportOutcome.requestError = mkNotFound fide_id ∧
    get_fide_rating fide_id TransportOutcome.httpError = mkNotFound fide_id ∧
    ∀ m : Markup, extract m fide_id = Except.error () →
      get_fide_rating fide_id (TransportOutcome.success m) = mkNotFound fide_id := by
  refine ⟨rfl, rfl, ?_⟩
  intro m hm
  show (match extract m fide_id with
        | Except.ok r => r
        | Except.error _ => mkNotFound fide_id) = mkNotFound fide_id
  rw [hm]

/-- Witness for C7: a request failure, and a malformed response (an entry
without its label span, which raises inside parsing), both yield the
sentinel. -/
theorem transport_failure_sentinel_c7_witness :
    get_fide_rating "0" TransportOutcome.requestError = mkNotFound "0" ∧
    get_fide_rating "0" (TransportOutcome.success
        { titleText := some "X", ratingsSection := some [{ desc := none, text := "y" }] })
      = mkNotFound "0" :=
  ⟨(transport_failure_sentinel_c7 "0").1,
   (transport_failure_sentinel_c7 "0").2.2 _ rfl⟩

/-- Claim C8: `store` followed by `load` returns a snapshot equal
field-for-field to the one stored (the text layer of the `json` module is
trusted; write and read are assumed to succeed). -/
theorem cache_roundtrip_c8 (s : List Record) :
    get_cached_ratings (cache_ratings s) = some s := by
  simp [get_cached_ratings, cache_ratings, decodeSnapshot_encodeSnapshot]

/-- Claim C9: `rank` is idempotent — sorting an already ranked batch
returns it unchanged, for every batch. -/
theorem rank_idempotent_c9 (xs : List Record) : rank (rank xs) = rank xs :=
  isort_of_pairwise (pairwise_isort xs)

/-- Claim C10: in a batch whose every `standard` value is an integer or
the string `"Unrated"`, every pairwise comparison of the line-141 sort
keys is defined (no `TypeError`): the boolean primary key separates the
integer-valued from the string-valued entries, so the second components
are only ever compared within one type. -/
theorem sort_key_comparisons_defined_c10 (xs : List PyVal)
    (hxs : ∀ v ∈ xs, validStd v) (v1 : PyVal) (h1 : v1 ∈ xs)
    (v2 : PyVal) (h2 : v2 ∈ xs) :
    ∃ b : Bool, pyKeyLt (pyKeyOf v1) (pyKeyOf v2) = Except.ok b := by
  have hv1 := hxs v1 h1
  have hv2 := hxs v2 h2
  rcases hv1 with ⟨n, rfl⟩ | rfl <;> rcases hv2 with ⟨m, rfl⟩ | rfl
  · by_cases he : (n == m) = true
    · exact ⟨false, by simp [pyKeyLt, pyKeyOf, pyEq, he]⟩
    · exact ⟨decide (n < m), by simp [pyKeyLt, pyKeyOf, pyEq, pyLt, he]⟩
  · exact ⟨true, by simp [pyKeyLt, pyKeyOf, pyEq]⟩
  · exact ⟨false, by simp [pyKeyLt, pyKeyOf, pyEq]⟩
  · exact ⟨false, by simp [pyKeyLt, pyKeyOf, pyEq]⟩

/-- Witness for C10: in the batch `[2500, "Unrated"]` the cross
comparison is defined. -/
theorem sort_key_comparisons_defined_c10_witness :
    ∃ b : Bool, pyKeyLt (pyKeyOf (PyVal.pyint 2500)) (pyKeyOf (PyVal.pystr "Unrated"))
      = Except.ok b :=
  sort_key_comparisons_defined_c10 [PyVal.pyint 2500, PyVal.pystr "Unrated"]
    (by
      intro v hv
      simp only [List.mem_cons, List.not_mem_nil, or_false] at hv
      rcases hv with rfl | rfl
      · exact Or.inl ⟨2500, rfl⟩
      · exact Or.inr rfl)
    (PyVal.pyint 2500) (by simp) (PyVal.pystr "Unrated") (by simp)

end FIDE
